import Mathlib

/-!
Verification of the `ProductProcessor` pipeline of `src/importer/processors/product.py`.

Modelling conventions:
* Python strings are modelled as `List Char` (`Str`).  Python's Unicode-aware
  `str.isalnum` is modelled by `pyIsAlnum`, which reproduces Python's table
  exactly on the Basic Latin and Latin-1 Supplement blocks (code points below
  0x100) and maps everything above to `false` (disclosed domain restriction).
  `str.upper` / `str.lower` are modelled character-wise by `Char.toUpper` /
  `Char.toLower`, which act on ASCII letters and are the identity elsewhere;
  the theorems never rely on case-mapping a non-ASCII letter.
* A CSV row (`pandas.Series`) is modelled as an association list from column
  name to cell text, which is also exactly the `row.to_dict()` payload the
  error tracker stores as context.
* The collaborators that are not part of `src/` (`SessionManager`,
  `ErrorTracker`, `utils.system_products`, `generate_uuid`) are modelled at
  their interface: the error tracker is an append-only list of records plus
  counters (spec §4.6), the session is the working list of `Product` rows
  with commit/rollback against a committed database list (spec §4.7/§5),
  `is_system_product` is membership in an environment-supplied code list, and
  `generate_uuid` is an environment-supplied injection-free id source.
* Exceptions raised by the environment (database faults and the like) are
  injected deterministically through `Env.rowFault` (an exception raised while
  a row is being handled, before any of its effects) and `Env.commitFault`
  (an exception raised by `session.commit()` for a given batch number).
* `datetime.utcnow()` is modelled by a logical clock in the processor state,
  advanced once per row that reaches the `now = datetime.utcnow()` line.
-/

namespace PyImporter

/-- Python strings, modelled as lists of characters. -/
abbrev Str := List Char

/-- A CSV row: column name to cell text, as produced by `row.to_dict()`. -/
abbrev Row := List (Str × Str)

/-- `str.strip()`: remove leading and trailing whitespace. -/
def strip (s : Str) : Str :=
  ((s.dropWhile Char.isWhitespace).reverse.dropWhile Char.isWhitespace).reverse

/-- `str.upper()`, character-wise (ASCII). -/
def upper (s : Str) : Str := s.map Char.toUpper

/-- `str.lower()`, character-wise (ASCII). -/
def lower (s : Str) : Str := s.map Char.toLower

/-- `str.startswith(p)`. -/
def startswith (s p : Str) : Bool := p.isPrefixOf s

/-- The `products` table row (src/importer/db/models/product.py interface):
only the fields the processor reads or writes. -/
structure Product where
  id : Str
  productCode : Str
  name : Str
  description : Str
  createdAt : Nat
  modifiedAt : Nat
deriving DecidableEq, Repr

/-- One structured record of the error tracker:
`add_error(category, message, context)`. -/
structure ErrorRecord where
  category : Str
  message : Str
  context : List (Str × Str)
deriving DecidableEq, Repr

/-- The processor's `self.stats` counters (base counters plus the product
counters installed in `ProductProcessor.__init__`). -/
structure Stats where
  total_products : Nat
  created : Nat
  updated : Nat
  skipped : Nat
  validation_errors : Nat
  total_errors : Nat
  successful_batches : Nat
  failed_batches : Nat
deriving DecidableEq, Repr

/-- All counters start at zero (`__init__` / `stats.update`). -/
def initStats : Stats := ⟨0, 0, 0, 0, 0, 0, 0, 0⟩

/-- Environment of the processor: the collaborators outside `src/` and the
nondeterminism of the outside world, fixed deterministically. -/
structure Env where
  /-- Modelled from the spec: `is_system_product` (utils/system_products.py is
  not under src/) is membership in a fixed set of system product codes. -/
  sysProducts : List Str
  /-- Modelled from the spec: `initialize_system_products` (not under src/)
  is some transformation of the committed product table, run first. -/
  initSystem : List Product → List Product
  /-- `generate_uuid` (not under src/): a fresh id drawn from the clock. -/
  genUuid : Nat → Str
  /-- An exception raised while handling this row, `none` if the row's
  handling raises nothing. -/
  rowFault : Row → Option Str
  /-- An exception raised by `session.commit()` of the given (1-based) batch
  number, `none` if that commit succeeds. -/
  commitFault : Nat → Option Str

/-- Processor plus session state while a file is processed. -/
structure PState where
  /-- Products visible to `session.query` (committed rows plus this batch's
  uncommitted writes). -/
  sessionProducts : List Product
  /-- Products actually committed to the database. -/
  db : List Product
  /-- `self.processed_codes` (a Python set, modelled as a duplicate-free
  append list). -/
  processedCodes : List Str
  /-- `self.stats`. -/
  stats : Stats
  /-- The error tracker's record list. -/
  errors : List ErrorRecord
  /-- Logical clock backing `datetime.utcnow()`. -/
  clock : Nat

/-- Fresh processor over a committed database (`__init__`). -/
def initState (db : List Product) : PState :=
  { sessionProducts := db, db := db, processedCodes := [], stats := initStats,
    errors := [], clock := 0 }

/-- Cell lookup `str(row[col])`; the required columns are present whenever a
row is reached, so the default is never exercised by the processor. -/
def getField (row : Row) (col : Str) : Str := (row.lookup col).getD []

/-- Column name `'Product/Service'`. -/
def productCol : Str := "Product/Service".toList

/-- Column name `'Product/Service Description'`. -/
def descCol : Str := "Product/Service Description".toList

/-- The normalized product code of a row:
`str(row[...]).strip().upper()` (product.py line 203). -/
def rowCode (row : Row) : Str := upper (strip (getField row productCol))

/-- The normalized description of a row:
`str(row[...]).strip()` (product.py line 204). -/
def rowDesc (row : Row) : Str := strip (getField row descCol)

/-- The Latin-1 Supplement alphanumerics of Python's `str.isalnum`: the
ordinal indicators `ª` (0xAA) and `º` (0xBA), the superscripts `²³¹`
(0xB2, 0xB3, 0xB9), the micro sign `µ` (0xB5), the vulgar fractions `¼½¾`
(0xBC-0xBE), and the accented letters 0xC0-0xD6, 0xD8-0xF6, 0xF8-0xFF
(`×` 0xD7 and `÷` 0xF7 excluded). -/
def latinAlnum (c : Char) : Bool :=
  c.toNat == 0xAA || c.toNat == 0xB2 || c.toNat == 0xB3 ||
  c.toNat == 0xB5 || c.toNat == 0xB9 || c.toNat == 0xBA ||
  (decide (0xBC ≤ c.toNat) && decide (c.toNat ≤ 0xBE)) ||
  (decide (0xC0 ≤ c.toNat) && decide (c.toNat ≤ 0xD6)) ||
  (decide (0xD8 ≤ c.toNat) && decide (c.toNat ≤ 0xF6)) ||
  (decide (0xF8 ≤ c.toNat) && decide (c.toNat ≤ 0xFF))

/-- Python's Unicode-aware `str.isalnum`, modelled exactly on the Basic
Latin and Latin-1 Supplement blocks (code points below 0x100): the ASCII
letters and digits plus `latinAlnum`.  Code points at or above 0x100 are
outside the modelled domain and map to `false`, although Python accepts
further Unicode alphanumerics there. -/
def pyIsAlnum (c : Char) : Bool :=
  c.isAlphanum || latinAlnum c

/-- `_validate_product_code` (product.py lines 135-151); the character test
is `c.isalnum() or c in '-_.'` with Python's Unicode-aware `isalnum`. -/
def validate_product_code (product_code : Str) : Option Str :=
  if product_code = [] then
    some "Product code is required".toList
  else if 50 < product_code.length then
    some "Product code exceeds maximum length".toList
  else if ¬ product_code.all (fun c => pyIsAlnum c || c ∈ ['-', '_', '.']) then
    some "Product code contains invalid characters (only letters, numbers, hyphen, underscore, and period allowed)".toList
  else
    none

/-- `_validate_description` (product.py lines 153-166). -/
def validate_description (description : Str) : Option Str :=
  if description = [] then
    none
  else if 500 < description.length then
    some "Description exceeds maximum length".toList
  else
    none

/-- `_validate_product_data` (product.py lines 168-197). -/
def validate_product_data (product_code description : Str) : List Str :=
  let errors₁ :=
    match validate_product_code product_code with
    | some e => [e]
    | none => []
  let errors₂ :=
    match validate_description description with
    | some e => errors₁ ++ [e]
    | none => errors₁
  let errors₃ :=
    if startswith product_code "TEST-".toList then
      errors₂ ++ ["Test products not allowed in production".toList]
    else errors₂
  if description ≠ [] ∧ startswith (lower description) "deprecated".toList then
    errors₃ ++ ["Deprecated products should not be imported".toList]
  else errors₃

/-- `session.query(Product).filter(Product.productCode == code).first()`:
first product of the session with the given code. -/
def findProduct : List Product → Str → Option Product
  | [], _ => none
  | p :: ps, c => if p.productCode = c then some p else findProduct ps c

/-- In-place mutation of the first product carrying the given code:
`product.description = description; product.modifiedAt = now`. -/
def updateFirst (ps : List Product) (c desc : Str) (now : Nat) : List Product :=
  match ps with
  | [] => []
  | p :: rest =>
    if p.productCode = c then
      { p with description := desc, modifiedAt := now } :: rest
    else
      p :: updateFirst rest c desc now

/-- `is_system_product`, per `Env.sysProducts`. -/
def is_system_product (env : Env) (c : Str) : Bool := env.sysProducts.contains c

/-- `_process_row` (product.py lines 199-263).  The whole body sits in a
`try` whose `except Exception` records a `processing` error and bumps
`total_errors`; the injected `rowFault` models such an exception, raised at
the top of the body. -/
def processRow (env : Env) (st : PState) (row : Row) : PState :=
  match env.rowFault row with
  | some msg =>
    { st with
      errors := st.errors ++ [⟨"processing".toList, msg, row⟩],
      stats.total_errors := st.stats.total_errors + 1 }
  | none =>
    let product_code := rowCode row
    let description := rowDesc row
    let verrs := validate_product_data product_code description
    if verrs ≠ [] then
      { st with
        stats.validation_errors := st.stats.validation_errors + verrs.length,
        errors := st.errors ++ verrs.map (fun e => ⟨"validation".toList, e, row⟩) }
    else if product_code ∈ st.processedCodes then
      { st with stats.skipped := st.stats.skipped + 1 }
    else if is_system_product env product_code then
      { st with stats.skipped := st.stats.skipped + 1 }
    else
      let st₁ :=
        { st with
          processedCodes := st.processedCodes ++ [product_code],
          stats.total_products := st.stats.total_products + 1 }
      let now := st.clock
      match findProduct st.sessionProducts product_code with
      | some product =>
        if description ≠ [] ∧ description ≠ product.description then
          { st₁ with
            sessionProducts := updateFirst st.sessionProducts product_code description now,
            stats.updated := st₁.stats.updated + 1,
            clock := st.clock + 1 }
        else
          { st₁ with stats.skipped := st₁.stats.skipped + 1, clock := st.clock + 1 }
      | none =>
        { st₁ with
          sessionProducts := st.sessionProducts ++
            [{ id := env.genUuid now, productCode := product_code,
               name := product_code, description := description,
               createdAt := now, modifiedAt := now }],
          stats.created := st₁.stats.created + 1,
          clock := st.clock + 1 }

/-- The rows a batch is handed: `for _, row in batch_df.iterrows()`,
i.e. a left fold of `_process_row` over the batch in file order. -/
def processRows (env : Env) (st : PState) (rows : List Row) : PState :=
  rows.foldl (processRow env) st

/-- One batch (product.py lines 87-101): run every row, then commit.  A
successful commit persists the session and bumps `successful_batches`; a
commit exception rolls the session back to the committed database, bumps
`failed_batches` and `total_errors`, and the loop continues (`continue`). -/
def processBatch (env : Env) (st : PState) (batch : List Row) (batchNum : Nat) :
    PState :=
  let st' := processRows env st batch
  match env.commitFault batchNum with
  | none =>
    { st' with db := st'.sessionProducts,
               stats.successful_batches := st'.stats.successful_batches + 1 }
  | some _ =>
    { st' with sessionProducts := st'.db,
               stats.failed_batches := st'.stats.failed_batches + 1,
               stats.total_errors := st'.stats.total_errors + 1 }

/-- The batch slices `df.iloc[start:start+batch_size]` for
`start in range(0, len(df), batch_size)` (product.py lines 84-85).  Python
raises `ValueError` on a zero step, so the function is only meaningful for
`0 < bs`, which every theorem below assumes. -/
def chunkRows (bs : Nat) : List Row → List (List Row)
  | [] => []
  | r :: rs => ((r :: rs).take bs) :: chunkRows bs (rs.drop (bs - 1))
termination_by rows => rows.length
decreasing_by
  simp only [List.length_drop, List.length_cons]
  omega

/-- The batch loop, threading the 1-based `batch_num` of `enumerate`. -/
def processBatches (env : Env) : List (List Row) → Nat → PState → PState
  | [], _, st => st
  | b :: bs, n, st => processBatches env bs (n + 1) (processBatch env st b n)

/-- A parsed CSV file: its column headers and its rows. -/
structure CsvFile where
  columns : List Str
  rows : List Row

/-- Header mapping success (product.py lines 69-78): every standardized
field resolves to a present column, else `ValueError` is raised. -/
def requiredColumnsPresent (file : CsvFile) : Bool :=
  productCol ∈ file.columns && descCol ∈ file.columns

/-- The dict `process_file` returns. -/
structure RunResult where
  success : Bool
  stats : Stats
  errors : List ErrorRecord
deriving DecidableEq, Repr

/-- `process_file` (product.py lines 50-133): initialize system products,
check the header mapping, run the batch loop, and report
`success = (failed_batches == 0)`; any exception before the loop (such as
the missing-column `ValueError`) is caught at the top level, recorded as a
`file_processing` error, and reported as `success = False`. -/
def processFile (env : Env) (db : List Product) (filePath : Str)
    (file : CsvFile) (bs : Nat) : RunResult :=
  let db' := env.initSystem db
  let st₀ := initState db'
  if requiredColumnsPresent file then
    let final := processBatches env (chunkRows bs file.rows) 1 st₀
    { success := final.stats.failed_batches == 0,
      stats := final.stats,
      errors := final.errors }
  else
    { success := false,
      stats := st₀.stats,
      errors := st₀.errors ++
        [⟨"file_processing".toList,
          "Missing required columns in CSV file".toList,
          [("file".toList, filePath)]⟩] }

/-- The character class `[A-Za-z0-9._-]` named by the spec, stated over
character ranges.  The code's `c.isalnum() or c in '-_.'` test accepts
strictly more than this class: see `pyAllowedChar` and
`claim_C2_counterexample`. -/
def specAllowedChar (c : Char) : Prop :=
  ('A' ≤ c ∧ c ≤ 'Z') ∨ ('a' ≤ c ∧ c ≤ 'z') ∨ ('0' ≤ c ∧ c ≤ '9') ∨
  c = '.' ∨ c = '_' ∨ c = '-'

instance (c : Char) : Decidable (specAllowedChar c) := by
  unfold specAllowedChar; infer_instance

/-- `latinAlnum` as a predicate over code points. -/
def latinAllowedChar (c : Char) : Prop :=
  c.toNat = 0xAA ∨ c.toNat = 0xB2 ∨ c.toNat = 0xB3 ∨ c.toNat = 0xB5 ∨
  c.toNat = 0xB9 ∨ c.toNat = 0xBA ∨
  (0xBC ≤ c.toNat ∧ c.toNat ≤ 0xBE) ∨ (0xC0 ≤ c.toNat ∧ c.toNat ≤ 0xD6) ∨
  (0xD8 ≤ c.toNat ∧ c.toNat ≤ 0xF6) ∨ (0xF8 ≤ c.toNat ∧ c.toNat ≤ 0xFF)

instance (c : Char) : Decidable (latinAllowedChar c) := by
  unfold latinAllowedChar; infer_instance

/-- The class the code actually accepts: the spec's `[A-Za-z0-9._-]` plus
the Latin-1 alphanumerics of Python's `isalnum`.  `pyAllowed_iff` below
proves it matches the code's character test. -/
def pyAllowedChar (c : Char) : Prop :=
  specAllowedChar c ∨ latinAllowedChar c

instance (c : Char) : Decidable (pyAllowedChar c) := by
  unfold pyAllowedChar; infer_instance

/-- `some code` when handling this row in this state reaches the
create-or-update stage (a differing-description update of an existing
product, or a creation); `none` for every non-mutating outcome. -/
def rowMutates (env : Env) (st : PState) (row : Row) : Option Str :=
  match env.rowFault row with
  | some _ => none
  | none =>
    let product_code := rowCode row
    let description := rowDesc row
    if validate_product_data product_code description ≠ [] then none
    else if product_code ∈ st.processedCodes then none
    else if is_system_product env product_code then none
    else
      match findProduct st.sessionProducts product_code with
      | some product =>
        if description ≠ [] ∧ description ≠ product.description then
          some product_code
        else none
      | none => some product_code

/-- How many of the given rows, handled in order from the given state,
create or update a product under code `c`. -/
def mutationsOf (env : Env) (st : PState) (rows : List Row) (c : Str) : Nat :=
  match rows with
  | [] => 0
  | r :: rs =>
    (if rowMutates env st r = some c then 1 else 0) +
      mutationsOf env (processRow env st r) rs c

/-! ### Concrete sample data used to instantiate the theorems -/

/-- A benign environment: no system products, identity initialization, no
injected exceptions. -/
def env0 : Env :=
  { sysProducts := [], initSystem := id, genUuid := fun _ => "u".toList,
    rowFault := fun _ => none, commitFault := fun _ => none }

/-- Like `env0`, but the first batch's commit raises. -/
def envCommitFail : Env :=
  { env0 with commitFault :=
      fun n => if n = 1 then some "IntegrityError".toList else none }

/-- Like `env0`, but handling the empty row raises, and the first batch's
commit raises. -/
def envFaulty : Env :=
  { env0 with
    rowFault := fun row => if row = [] then some "KeyError".toList else none,
    commitFault :=
      fun n => if n = 1 then some "IntegrityError".toList else none }

/-- A well-formed row that creates product `ABC-1`. -/
def wRowCreate : Row :=
  [(productCol, " abc-1 ".toList), (descCol, "Anchor bolt".toList)]

/-- A row whose product code holds a space, outside `[A-Za-z0-9._-]`. -/
def wRowBadChar : Row := [(productCol, "AB C".toList), (descCol, [])]

/-- A row whose product code `CAFÉ` carries the non-ASCII Unicode
alphanumeric `É` (U+00C9), which Python's `str.isalnum` accepts although it
lies outside `[A-Za-z0-9._-]`. -/
def wRowCafe : Row := [(productCol, "CAFÉ".toList), (descCol, [])]

/-- A row with a `TEST-` product code. -/
def wRowTest : Row := [(productCol, "TEST-X".toList), (descCol, [])]

/-- A row carrying a new description for the stored product `P1`. -/
def wRowUpd : Row := [(productCol, "P1".toList), (descCol, "new desc".toList)]

/-- A stored product `P1`. -/
def wProd : Product :=
  { id := "i1".toList, productCode := "P1".toList, name := "P1".toList,
    description := "old".toList, createdAt := 0, modifiedAt := 0 }

/-- A sample file path. -/
def wPath : Str := "sales.csv".toList

/-- A well-formed one-row file. -/
def wFile : CsvFile := { columns := [productCol, descCol], rows := [wRowCreate] }

/-- A file whose description column is missing. -/
def wFileBad : CsvFile := { columns := [productCol], rows := [wRowCreate] }

/-- A fresh processor over a database holding `P1`. -/
def wStP : PState := initState [wProd]

/-- A fresh processor that has already processed code `ABC-1`. -/
def wStDup : PState := { initState [] with processedCodes := ["ABC-1".toList] }

/-! ### Helper lemmas -/

/-- The ASCII part of the character test, `c.isAlphanum || c ∈ '-_.'`,
accepts exactly the spec's class `[A-Za-z0-9._-]`. -/
theorem ascii_allowed_iff (c : Char) :
    (c.isAlphanum || c ∈ ['-', '_', '.']) = true ↔ specAllowedChar c := by
  simp [Char.isAlphanum, Char.isAlpha, Char.isDigit, Char.isUpper,
        Char.isLower, specAllowedChar, Char.le_def]
  tauto

/-- The Latin-1 block of `pyIsAlnum` over code points. -/
theorem latin_iff (c : Char) :
    latinAlnum c = true ↔ latinAllowedChar c := by
  unfold latinAlnum latinAllowedChar
  simp only [Bool.or_eq_true, Bool.and_eq_true, decide_eq_true_eq,
    beq_iff_eq, or_assoc]

/-- The code's character test `c.isalnum() or c in '-_.'` accepts exactly
the class `pyAllowedChar`: the spec's `[A-Za-z0-9._-]` plus the Latin-1
alphanumerics. -/
theorem pyAllowed_iff (c : Char) :
    (pyIsAlnum c || c ∈ ['-', '_', '.']) = true ↔ pyAllowedChar c := by
  unfold pyIsAlnum pyAllowedChar
  constructor
  · intro h
    rcases (Bool.or_eq_true _ _).mp h with hpy | hm
    · rcases (Bool.or_eq_true _ _).mp hpy with hA | hL
      · exact Or.inl ((ascii_allowed_iff c).mp (by simp [hA]))
      · exact Or.inr ((latin_iff c).mp hL)
    · exact Or.inl ((ascii_allowed_iff c).mp
        ((Bool.or_eq_true _ _).mpr (Or.inr hm)))
  · rintro (hs | hl)
    · rcases (Bool.or_eq_true _ _).mp ((ascii_allowed_iff c).mpr hs) with hA | hM
      · exact (Bool.or_eq_true _ _).mpr (Or.inl ((Bool.or_eq_true _ _).mpr (Or.inl hA)))
      · exact (Bool.or_eq_true _ _).mpr (Or.inr hM)
    · exact (Bool.or_eq_true _ _).mpr
        (Or.inl ((Bool.or_eq_true _ _).mpr (Or.inr ((latin_iff c).mpr hl))))

/-- Below code point 0x80 the accepted class collapses to the spec's
`[A-Za-z0-9._-]`. -/
theorem pyAllowedChar_ascii (c : Char) (h : c.toNat < 128) :
    pyAllowedChar c ↔ specAllowedChar c := by
  unfold pyAllowedChar
  constructor
  · rintro (hs | hl)
    · exact hs
    · exfalso
      unfold latinAllowedChar at hl
      rcases hl with h1 | h1 | h1 | h1 | h1 | h1 | h1 | h1 | h1 | h1 <;> omega
  · exact Or.inl

/-- `_validate_product_code` rejects exactly the empty, overlong, or
out-of-`pyAllowedChar` codes. -/
theorem validate_code_isSome_iff (code : Str) :
    (validate_product_code code).isSome = true ↔
      code = [] ∨ 50 < code.length ∨ ∃ c ∈ code, ¬ pyAllowedChar c := by
  rw [validate_product_code]
  split
  · simp_all
  · split
    · next h1 h2 =>
      simp only [Option.isSome_some, true_iff]
      exact Or.inr (Or.inl h2)
    · split
      · next h1 h2 h3 =>
        simp only [Option.isSome_some, true_iff]
        refine Or.inr (Or.inr ?_)
        rw [List.all_eq_true] at h3
        push_neg at h3
        obtain ⟨c, hc, hp⟩ := h3
        exact ⟨c, hc, fun hs => hp ((pyAllowed_iff c).mpr hs)⟩
      · next h1 h2 h3 =>
        rw [Classical.not_not, List.all_eq_true] at h3
        constructor
        · intro h; simp at h
        · intro h
          exfalso
          rcases h with h | h | ⟨c, hc, hs⟩
          · exact h1 h
          · exact h2 h
          · exact hs ((pyAllowed_iff c).mp (h3 c hc))

/-- On all-ASCII codes, `_validate_product_code` rejects exactly the empty,
overlong, or out-of-`[A-Za-z0-9._-]` codes — the original claim, which is
true only on this restricted domain. -/
theorem validate_code_ascii_iff (code : Str) (h : ∀ c ∈ code, c.toNat < 128) :
    (validate_product_code code).isSome = true ↔
      code = [] ∨ 50 < code.length ∨ ∃ c ∈ code, ¬ specAllowedChar c := by
  rw [validate_code_isSome_iff]
  refine or_congr Iff.rfl (or_congr Iff.rfl ?_)
  constructor
  · rintro ⟨c, hc, hnc⟩
    exact ⟨c, hc, fun hs => hnc ((pyAllowedChar_ascii c (h c hc)).mpr hs)⟩
  · rintro ⟨c, hc, hnc⟩
    exact ⟨c, hc, fun hs => hnc ((pyAllowedChar_ascii c (h c hc)).mp hs)⟩

/-- A rejected product code makes `_validate_product_data` report at least
that error, so the row fails validation. -/
theorem vpd_ne_nil_of_code_err {code desc e : Str}
    (h : validate_product_code code = some e) :
    validate_product_data code desc ≠ [] := by
  unfold validate_product_data
  rw [h]
  cases validate_description desc <;> dsimp only <;> split <;> split <;> simp

/-- `_process_row`, exception branch (the injected fault): a `processing`
record is appended and `total_errors` is bumped. -/
theorem processRow_fault {env : Env} {st : PState} {row : Row} {msg : Str}
    (hf : env.rowFault row = some msg) :
    processRow env st row =
      { st with
        errors := st.errors ++ [⟨"processing".toList, msg, row⟩],
        stats.total_errors := st.stats.total_errors + 1 } := by
  unfold processRow
  rw [hf]

/-- `_process_row`, validation-failure branch. -/
theorem processRow_validation {env : Env} {st : PState} {row : Row}
    (hf : env.rowFault row = none)
    (hv : validate_product_data (rowCode row) (rowDesc row) ≠ []) :
    processRow env st row =
      { st with
        stats.validation_errors := st.stats.validation_errors +
          (validate_product_data (rowCode row) (rowDesc row)).length,
        errors := st.errors ++
          (validate_product_data (rowCode row) (rowDesc row)).map
            (fun e => ⟨"validation".toList, e, row⟩) } := by
  unfold processRow
  rw [hf]
  simp only [hv, if_pos, ne_eq, not_false_eq_true, if_true]

/-- `_process_row`, duplicate-code branch: only `skipped` changes. -/
theorem processRow_dup {env : Env} {st : PState} {row : Row}
    (hf : env.rowFault row = none)
    (hv : validate_product_data (rowCode row) (rowDesc row) = [])
    (hd : rowCode row ∈ st.processedCodes) :
    processRow env st row = { st with stats.skipped := st.stats.skipped + 1 } := by
  unfold processRow
  rw [hf]
  dsimp only
  rw [if_neg (by simp [hv]), if_pos hd]

/-- `_process_row`, system-product branch: only `skipped` changes. -/
theorem processRow_system {env : Env} {st : PState} {row : Row}
    (hf : env.rowFault row = none)
    (hv : validate_product_data (rowCode row) (rowDesc row) = [])
    (hd : rowCode row ∉ st.processedCodes)
    (hs : is_system_product env (rowCode row) = true) :
    processRow env st row = { st with stats.skipped := st.stats.skipped + 1 } := by
  unfold processRow
  rw [hf]
  dsimp only
  rw [if_neg (by simp [hv]), if_neg hd, if_pos hs]

/-- `_process_row`, update branch: existing product, non-empty differing
description. -/
theorem processRow_update {env : Env} {st : PState} {row : Row} {p : Product}
    (hf : env.rowFault row = none)
    (hv : validate_product_data (rowCode row) (rowDesc row) = [])
    (hd : rowCode row ∉ st.processedCodes)
    (hs : is_system_product env (rowCode row) = false)
    (hfind : findProduct st.sessionProducts (rowCode row) = some p)
    (hdesc : rowDesc row ≠ [] ∧ rowDesc row ≠ p.description) :
    processRow env st row =
      { st with
        sessionProducts :=
          updateFirst st.sessionProducts (rowCode row) (rowDesc row) st.clock,
        processedCodes := st.processedCodes ++ [rowCode row],
        stats.total_products := st.stats.total_products + 1,
        stats.updated := st.stats.updated + 1,
        clock := st.clock + 1 } := by
  unfold processRow
  rw [hf]
  dsimp only
  rw [if_neg (by simp [hv]), if_neg hd, if_neg (by simp [hs]), hfind]
  dsimp only
  rw [if_pos hdesc]

/-- `_process_row`, no-change branch: existing product, empty or identical
description; only `total_products`, `skipped` and the processed-code set
change. -/
theorem processRow_nochange {env : Env} {st : PState} {row : Row} {p : Product}
    (hf : env.rowFault row = none)
    (hv : validate_product_data (rowCode row) (rowDesc row) = [])
    (hd : rowCode row ∉ st.processedCodes)
    (hs : is_system_product env (rowCode row) = false)
    (hfind : findProduct st.sessionProducts (rowCode row) = some p)
    (hdesc : ¬ (rowDesc row ≠ [] ∧ rowDesc row ≠ p.description)) :
    processRow env st row =
      { st with
        processedCodes := st.processedCodes ++ [rowCode row],
        stats.total_products := st.stats.total_products + 1,
        stats.skipped := st.stats.skipped + 1,
        clock := st.clock + 1 } := by
  unfold processRow
  rw [hf]
  dsimp only
  rw [if_neg (by simp [hv]), if_neg hd, if_neg (by simp [hs]), hfind]
  dsimp only
  rw [if_neg hdesc]

/-- `_process_row`, creation branch: no product with the code exists. -/
theorem processRow_create {env : Env} {st : PState} {row : Row}
    (hf : env.rowFault row = none)
    (hv : validate_product_data (rowCode row) (rowDesc row) = [])
    (hd : rowCode row ∉ st.processedCodes)
    (hs : is_system_product env (rowCode row) = false)
    (hfind : findProduct st.sessionProducts (rowCode row) = none) :
    processRow env st row =
      { st with
        sessionProducts := st.sessionProducts ++
          [{ id := env.genUuid st.clock, productCode := rowCode row,
             name := rowCode row, description := rowDesc row,
             createdAt := st.clock, modifiedAt := st.clock }],
        processedCodes := st.processedCodes ++ [rowCode row],
        stats.total_products := st.stats.total_products + 1,
        stats.created := st.stats.created + 1,
        clock := st.clock + 1 } := by
  unfold processRow
  rw [hf]
  dsimp only
  rw [if_neg (by simp [hv]), if_neg hd, if_neg (by simp [hs]), hfind]

/-- `updateFirst` never changes the sequence of product codes. -/
theorem updateFirst_map_code (ps : List Product) (c d : Str) (t : Nat) :
    (updateFirst ps c d t).map Product.productCode =
      ps.map Product.productCode := by
  induction ps with
  | nil => rfl
  | cons p rest ih =>
    unfold updateFirst
    split <;> simp [ih]

/-- A successful lookup splits the session into the untouched products before
the first match, the match, and the untouched products after it, and
`updateFirst` rewrites exactly the match's description and `modifiedAt`. -/
theorem findProduct_update_decomp {ps : List Product} {c : Str} {p : Product}
    (h : findProduct ps c = some p) (d : Str) (t : Nat) :
    ∃ pre suf, ps = pre ++ p :: suf ∧ (∀ q ∈ pre, q.productCode ≠ c) ∧
      p.productCode = c ∧
      updateFirst ps c d t =
        pre ++ { p with description := d, modifiedAt := t } :: suf := by
  induction ps with
  | nil => simp [findProduct] at h
  | cons q rest ih =>
    by_cases hq : q.productCode = c
    · rw [findProduct, if_pos hq] at h
      obtain rfl : q = p := by injection h
      refine ⟨[], rest, rfl, by simp, hq, ?_⟩
      rw [updateFirst, if_pos hq]
      rfl
    · rw [findProduct, if_neg hq] at h
      obtain ⟨pre, suf, hps, hpre, hpc, hupd⟩ := ih h
      refine ⟨q :: pre, suf, by simp [hps], ?_, hpc, ?_⟩
      · intro r hr
        rcases List.mem_cons.mp hr with rfl | hr
        · exact hq
        · exact hpre r hr
      · rw [updateFirst, if_neg hq, hupd]
        rfl

/-- `_process_row` never touches the committed database, the batch counters,
or the created/updated/skipped attribution of other rows; `total_errors`
grows exactly on the exception branch. -/
theorem processRow_frame (env : Env) (st : PState) (row : Row) :
    (processRow env st row).db = st.db ∧
    (processRow env st row).stats.successful_batches =
      st.stats.successful_batches ∧
    (processRow env st row).stats.failed_batches = st.stats.failed_batches ∧
    (processRow env st row).stats.total_errors =
      st.stats.total_errors + (if (env.rowFault row).isSome then 1 else 0) := by
  unfold processRow
  rcases hf : env.rowFault row with _ | msg <;> dsimp only
  · repeat' split
    all_goals simp_all
  · simp

/-- The processed-code set only ever grows, by at most the row's own code. -/
theorem processRow_codes (env : Env) (st : PState) (row : Row) :
    (processRow env st row).processedCodes = st.processedCodes ∨
    (processRow env st row).processedCodes =
      st.processedCodes ++ [rowCode row] := by
  unfold processRow
  rcases env.rowFault row with _ | msg <;> dsimp only
  · repeat' split
    all_goals simp
  · simp

/-- The session's sequence of product codes is only ever extended, never
shortened or rewritten: no product is deleted by `_process_row`. -/
theorem processRow_prodCodes (env : Env) (st : PState) (row : Row) :
    ∃ rest, (processRow env st row).sessionProducts.map Product.productCode =
      st.sessionProducts.map Product.productCode ++ rest := by
  unfold processRow
  rcases env.rowFault row with _ | msg <;> dsimp only
  · repeat' split
    case _ h => exact ⟨[], by simp⟩
    case _ => exact ⟨[], by simp⟩
    case _ => exact ⟨[], by simp⟩
    case _ => exact ⟨[], by simp [updateFirst_map_code]⟩
    case _ => exact ⟨[], by simp⟩
    case _ => exact ⟨[rowCode row], by simp⟩
  · exact ⟨[], by simp⟩

/-- Membership in the processed-code set is preserved by every row. -/
theorem processRow_codes_mono {env : Env} {st : PState} {row : Row} {c : Str}
    (h : c ∈ st.processedCodes) : c ∈ (processRow env st row).processedCodes := by
  rcases processRow_codes env st row with heq | heq <;> rw [heq]
  · exact h
  · exact List.mem_append_left _ h

/-- Handling a row reads and writes neither the committed database nor the
`successful_batches` counter, so shifting those fields commutes with it. -/
theorem processRow_shift (env : Env) (st : PState) (row : Row)
    (d : List Product) (k : Nat) :
    processRow env { st with db := d, stats.successful_batches := k } row =
      { processRow env st row with db := d, stats.successful_batches := k } := by
  unfold processRow
  rcases env.rowFault row with _ | msg <;> dsimp only
  repeat' split
  all_goals simp_all

/-- `processRow_shift`, folded over a whole batch. -/
theorem processRows_shift (env : Env) (rows : List Row) :
    ∀ (st : PState) (d : List Product) (k : Nat),
    processRows env { st with db := d, stats.successful_batches := k } rows =
      { processRows env st rows with db := d, stats.successful_batches := k } := by
  induction rows with
  | nil => intro st d k; rfl
  | cons r rs ih =>
    intro st d k
    show processRows env (processRow env _ r) rs = _
    rw [processRow_shift, ih]
    rfl

/-- Batch-counter and database frame over a whole batch, and the exact
`total_errors` contribution of the rows (one per injected row exception). -/
theorem processRows_frame (env : Env) (rows : List Row) :
    ∀ st : PState,
    (processRows env st rows).db = st.db ∧
    (processRows env st rows).stats.successful_batches =
      st.stats.successful_batches ∧
    (processRows env st rows).stats.failed_batches =
      st.stats.failed_batches ∧
    (processRows env st rows).stats.total_errors = st.stats.total_errors +
      rows.countP (fun r => (env.rowFault r).isSome) := by
  induction rows with
  | nil => intro st; simp [processRows]
  | cons r rs ih =>
    intro st
    obtain ⟨h1, h2, h3, h4⟩ := ih (processRow env st r)
    obtain ⟨g1, g2, g3, g4⟩ := processRow_frame env st r
    have hstep : processRows env st (r :: rs) =
        processRows env (processRow env st r) rs := rfl
    rw [hstep, h1, h2, h3, h4, g1, g2, g3, g4, List.countP_cons]
    refine ⟨rfl, rfl, rfl, ?_⟩
    by_cases hf : (env.rowFault r).isSome = true <;> simp [hf] <;> omega

/-- Membership in the processed-code set is preserved by a whole batch. -/
theorem processRows_codes_mono {env : Env} {rows : List Row} {c : Str} :
    ∀ {st : PState}, c ∈ st.processedCodes →
      c ∈ (processRows env st rows).processedCodes := by
  induction rows with
  | nil => intro st h; exact h
  | cons r rs ih => intro st h; exact ih (processRow_codes_mono h)

/-- No product is deleted by a whole batch of rows. -/
theorem processRows_prodCodes (env : Env) (rows : List Row) :
    ∀ st : PState, ∃ rest,
      (processRows env st rows).sessionProducts.map Product.productCode =
        st.sessionProducts.map Product.productCode ++ rest := by
  induction rows with
  | nil => intro st; exact ⟨[], by simp [processRows]⟩
  | cons r rs ih =>
    intro st
    obtain ⟨r1, hr1⟩ := processRow_prodCodes env st r
    obtain ⟨r2, hr2⟩ := ih (processRow env st r)
    exact ⟨r1 ++ r2, by
      show (processRows env (processRow env st r) rs).sessionProducts.map _ = _
      rw [hr2, hr1, List.append_assoc]⟩

/-- The batch slices reassemble to the file's rows, in order. -/
theorem chunkRows_flatten (bs : Nat) (h : 0 < bs) (rows : List Row) :
    (chunkRows bs rows).flatten = rows := by
  induction rows using chunkRows.induct bs with
  | case1 => simp [chunkRows]
  | case2 r rs ih =>
    rw [chunkRows]
    cases bs with
    | zero => omega
    | succ k =>
      rw [Nat.add_sub_cancel] at ih ⊢
      rw [List.flatten_cons, ih, List.take_succ_cons, List.cons_append,
        List.take_append_drop]

/-- `chunkRows _ xs` is empty only for an empty `xs`. -/
theorem chunkRows_ne_nil {bs : Nat} {xs : List Row} {c : List Row}
    {cs : List (List Row)} (h : chunkRows bs xs = c :: cs) : xs ≠ [] := by
  intro hx
  rw [hx] at h
  simp [chunkRows] at h

/-- There are exactly `ceil(row_count / batch_size)` batches. -/
theorem chunkRows_length (bs : Nat) (h : 0 < bs) (rows : List Row) :
    (chunkRows bs rows).length = (rows.length + bs - 1) / bs := by
  induction rows using chunkRows.induct bs with
  | case1 =>
    simp only [chunkRows, List.length_nil, Nat.zero_add]
    exact (Nat.div_eq_of_lt (by omega)).symm
  | case2 r rs ih =>
    rw [chunkRows]
    cases bs with
    | zero => omega
    | succ k =>
      rw [Nat.add_sub_cancel] at ih ⊢
      rw [List.length_cons, List.length_cons, ih, List.length_drop]
      rcases Nat.le_total k rs.length with hk | hk
      · have e1 : rs.length - k + (k + 1) - 1 = rs.length := by omega
        have e2 : rs.length + 1 + (k + 1) - 1 = rs.length + (k + 1) := by omega
        rw [e1, e2, Nat.add_div_right _ (by omega)]
      · have e1 : rs.length - k + (k + 1) - 1 = k := by omega
        have e2 : rs.length + 1 + (k + 1) - 1 = rs.length + 1 + k := by omega
        rw [e1, e2, Nat.div_eq_of_lt (by omega)]
        have h1 : 1 * (k + 1) ≤ rs.length + 1 + k := by omega
        have h2 : rs.length + 1 + k < (1 + 1) * (k + 1) := by omega
        rw [Nat.div_eq_of_lt_le h1 h2]

/-- Every batch is nonempty and holds at most `batch_size` rows. -/
theorem chunkRows_sizes (bs : Nat) (h : 0 < bs) (rows : List Row) :
    ∀ b ∈ chunkRows bs rows, b ≠ [] ∧ b.length ≤ bs := by
  induction rows using chunkRows.induct bs with
  | case1 => simp [chunkRows]
  | case2 r rs ih =>
    rw [chunkRows]
    intro b hb
    rcases List.mem_cons.mp hb with rfl | hb
    · constructor
      · cases bs with
        | zero => omega
        | succ k => simp [List.take_succ_cons]
      · simp only [List.length_take]
        omega
    · exact ih b hb

/-- Every batch except possibly the last holds exactly `batch_size` rows. -/
theorem chunkRows_dropLast (bs : Nat) (h : 0 < bs) (rows : List Row) :
    ∀ b ∈ (chunkRows bs rows).dropLast, b.length = bs := by
  induction rows using chunkRows.induct bs with
  | case1 => simp [chunkRows]
  | case2 r rs ih =>
    rw [chunkRows]
    intro b hb
    cases hcr : chunkRows bs (rs.drop (bs - 1)) with
    | nil => rw [hcr] at hb; simp at hb
    | cons c cs =>
      rw [hcr] at hb
      rw [List.dropLast_cons_of_ne_nil (by simp)] at hb
      rcases List.mem_cons.mp hb with rfl | hb
      · have hne : rs.drop (bs - 1) ≠ [] := chunkRows_ne_nil hcr
        have hlen : bs - 1 < rs.length := by
          by_contra hc
          exact hne (List.drop_of_length_le (by omega))
        simp only [List.length_take, List.length_cons]
        omega
      · rw [← hcr] at hb
        exact ih b hb

/-- One batch under a failing commit: the session rolls back to the committed
database, `failed_batches` and `total_errors` are each incremented once, and
the error-record list is whatever the rows alone produced. -/
theorem processBatch_fault {env : Env} {st : PState} {batch : List Row}
    {n : Nat} {msg : Str} (hc : env.commitFault n = some msg) :
    processBatch env st batch n =
      { processRows env st batch with
        sessionProducts := st.db,
        stats.failed_batches :=
          (processRows env st batch).stats.failed_batches + 1,
        stats.total_errors :=
          (processRows env st batch).stats.total_errors + 1 } := by
  unfold processBatch
  rw [hc]
  dsimp only
  obtain ⟨h1, _, _, _⟩ := processRows_frame env batch st
  rw [h1]

/-- One batch under a succeeding commit: the session is committed to the
database and `successful_batches` is incremented once. -/
theorem processBatch_ok {env : Env} {st : PState} {batch : List Row}
    {n : Nat} (hc : env.commitFault n = none) :
    processBatch env st batch n =
      { processRows env st batch with
        db := (processRows env st batch).sessionProducts,
        stats.successful_batches :=
          (processRows env st batch).stats.successful_batches + 1 } := by
  unfold processBatch
  rw [hc]

/-- Counter bookkeeping of the whole batch loop: each batch whose commit
raises contributes exactly one `failed_batches` tick and one `total_errors`
tick, every other batch one `successful_batches` tick, and the rows
contribute one `total_errors` tick per row exception — regardless of any
failure, the loop runs every batch. -/
theorem processBatches_stats (env : Env) :
    ∀ (chunks : List (List Row)) (n : Nat) (st : PState),
    (processBatches env chunks n st).stats.failed_batches =
      st.stats.failed_batches +
        (List.range' n chunks.length).countP
          (fun m => (env.commitFault m).isSome) ∧
    (processBatches env chunks n st).stats.successful_batches =
      st.stats.successful_batches +
        (chunks.length -
          (List.range' n chunks.length).countP
            (fun m => (env.commitFault m).isSome)) ∧
    (processBatches env chunks n st).stats.total_errors =
      st.stats.total_errors +
        chunks.flatten.countP (fun r => (env.rowFault r).isSome) +
        (List.range' n chunks.length).countP
          (fun m => (env.commitFault m).isSome) := by
  intro chunks
  induction chunks with
  | nil => intro n st; simp [processBatches]
  | cons b bs ih =>
    intro n st
    have hstep : processBatches env (b :: bs) n st =
        processBatches env bs (n + 1) (processBatch env st b n) := rfl
    rw [hstep]
    obtain ⟨i1, i2, i3⟩ := ih (n + 1) (processBatch env st b n)
    rw [i1, i2, i3]
    obtain ⟨f1, f2, f3, f4⟩ := processRows_frame env b st
    have hcle : (List.range' (n + 1) bs.length).countP
        (fun m => (env.commitFault m).isSome) ≤ bs.length := by
      have := @List.countP_le_length Nat (fun m => (env.commitFault m).isSome)
        (List.range' (n + 1) bs.length)
      simpa using this
    rcases hc : env.commitFault n with _ | msg
    · rw [processBatch_ok hc]
      dsimp only
      rw [f2, f3, f4]
      simp only [List.range'_succ, List.countP_cons, List.flatten_cons,
        List.countP_append, List.length_cons, hc]
      simp only [Option.isSome_none, Bool.false_eq_true, if_false]
      refine ⟨by omega, by omega, by omega⟩
    · rw [processBatch_fault hc]
      dsimp only
      rw [f2, f3, f4]
      simp only [List.range'_succ, List.countP_cons, List.flatten_cons,
        List.countP_append, List.length_cons, hc]
      simp only [Option.isSome_some, if_true]
      refine ⟨by omega, by omega, by omega⟩

/-- When no commit raises, the whole batch loop is the plain left fold of
`_process_row` over the file's rows in order, except that `db` tracks the
session and `successful_batches` counts the batches. -/
theorem processBatches_nofault (env : Env)
    (hcf : ∀ n, env.commitFault n = none) :
    ∀ (chunks : List (List Row)) (n : Nat) (st : PState),
    (processBatches env chunks n st).sessionProducts =
      (processRows env st chunks.flatten).sessionProducts ∧
    (processBatches env chunks n st).processedCodes =
      (processRows env st chunks.flatten).processedCodes ∧
    (processBatches env chunks n st).errors =
      (processRows env st chunks.flatten).errors ∧
    (processBatches env chunks n st).clock =
      (processRows env st chunks.flatten).clock ∧
    (processBatches env chunks n st).stats =
      { (processRows env st chunks.flatten).stats with
        successful_batches := st.stats.successful_batches + chunks.length } := by
  intro chunks
  induction chunks with
  | nil =>
    intro n st
    exact ⟨rfl, rfl, rfl, rfl, rfl⟩
  | cons b bs ih =>
    intro n st
    have hstep : processBatches env (b :: bs) n st =
        processBatches env bs (n + 1) (processBatch env st b n) := rfl
    rw [hstep, processBatch_ok (hcf n)]
    set P := processRows env st b with hP
    have hshift : ∀ rows, processRows env
        { P with db := P.sessionProducts,
                 stats.successful_batches := P.stats.successful_batches + 1 }
        rows =
        { processRows env P rows with
            db := P.sessionProducts,
            stats.successful_batches := P.stats.successful_batches + 1 } := by
      intro rows
      exact processRows_shift env rows P P.sessionProducts
        (P.stats.successful_batches + 1)
    obtain ⟨i1, i2, i3, i4, i5⟩ := ih (n + 1)
      { P with db := P.sessionProducts,
               stats.successful_batches := P.stats.successful_batches + 1 }
    rw [i1, i2, i3, i4, i5, hshift]
    have hflat : processRows env P bs.flatten =
        processRows env st (b :: bs).flatten := by
      rw [hP, List.flatten_cons]
      exact (List.foldl_append _ _ _ _).symm
    obtain ⟨_, q2, _, _⟩ := processRows_frame env b st
    refine ⟨by rw [hflat], by rw [hflat], by rw [hflat], by rw [hflat], ?_⟩
    rw [hflat]
    dsimp only
    have hq : P.stats.successful_batches = st.stats.successful_batches := by
      rw [hP]; exact q2
    rw [hq]
    have harith : st.stats.successful_batches + 1 + bs.length =
        st.stats.successful_batches + (bs.length + 1) := by omega
    rw [harith]
    rfl

/-- A row that creates or updates under code `c` does so under its own
normalized code, and that code enters the processed set. -/
theorem rowMutates_mem {env : Env} {st : PState} {row : Row} {c : Str}
    (h : rowMutates env st row = some c) :
    c = rowCode row ∧ c ∉ st.processedCodes ∧
      c ∈ (processRow env st row).processedCodes := by
  unfold rowMutates at h
  rcases hf : env.rowFault row with _ | m
  case _ =>
    rw [hf] at h
    dsimp only at h
    by_cases hv : validate_product_data (rowCode row) (rowDesc row) = []
    case neg => rw [if_pos hv] at h; simp at h
    case pos =>
      rw [if_neg (by simp [hv])] at h
      by_cases hd : rowCode row ∈ st.processedCodes
      case pos => rw [if_pos hd] at h; simp at h
      case neg =>
        rw [if_neg hd] at h
        by_cases hs : is_system_product env (rowCode row) = true
        case pos => rw [if_pos hs] at h; simp at h
        case neg =>
          rw [if_neg hs] at h
          rw [Bool.not_eq_true] at hs
          rcases hfind : findProduct st.sessionProducts (rowCode row) with _ | p
          · rw [hfind] at h
            dsimp only at h
            obtain rfl : rowCode row = c := by injection h
            refine ⟨rfl, hd, ?_⟩
            rw [processRow_create hf hv hd hs hfind]
            simp
          · rw [hfind] at h
            dsimp only at h
            by_cases hdc : rowDesc row ≠ [] ∧ rowDesc row ≠ p.description
            · rw [if_pos hdc] at h
              obtain rfl : rowCode row = c := by injection h
              refine ⟨rfl, hd, ?_⟩
              rw [processRow_update hf hv hd hs hfind hdc]
              simp
            · rw [if_neg hdc] at h
              simp at h
  case _ =>
    rw [hf] at h
    simp at h

/-- A code already in the processed set is never created or updated again. -/
theorem rowMutates_of_mem {env : Env} {st : PState} {row : Row} {c : Str}
    (h : c ∈ st.processedCodes) : rowMutates env st row ≠ some c := by
  intro hm
  obtain ⟨_, hnot, _⟩ := rowMutates_mem hm
  exact hnot h

/-- Once a code is in the processed set, no later row of the run creates or
updates it. -/
theorem mutationsOf_eq_zero (env : Env) (rows : List Row) :
    ∀ {st : PState} {c : Str}, c ∈ st.processedCodes →
      mutationsOf env st rows c = 0 := by
  induction rows with
  | nil => intro st c _; rfl
  | cons r rs ih =>
    intro st c h
    unfold mutationsOf
    rw [if_neg (rowMutates_of_mem h), ih (processRow_codes_mono h)]

/-- Each distinct code is created-or-updated at most once per run. -/
theorem mutationsOf_le_one (env : Env) (rows : List Row) :
    ∀ (st : PState) (c : Str), mutationsOf env st rows c ≤ 1 := by
  induction rows with
  | nil => intro st c; exact Nat.zero_le 1
  | cons r rs ih =>
    intro st c
    unfold mutationsOf
    by_cases hm : rowMutates env st r = some c
    · obtain ⟨_, _, hmem⟩ := rowMutates_mem hm
      rw [if_pos hm, mutationsOf_eq_zero env rs hmem]
    · rw [if_neg hm]
      simpa using ih (processRow env st r) c

/-- A `TEST-` code always makes `_validate_product_data` fail. -/
theorem vpd_ne_nil_of_test {code desc : Str}
    (h : startswith code "TEST-".toList = true) :
    validate_product_data code desc ≠ [] := by
  unfold validate_product_data
  dsimp only
  rw [if_pos h]
  split <;> simp

/-- A description that lowercases to a `deprecated`-headed string always
makes `_validate_product_data` fail. -/
theorem vpd_ne_nil_of_depr {code desc : Str}
    (h : startswith (lower desc) "deprecated".toList = true) :
    validate_product_data code desc ≠ [] := by
  have hne : desc ≠ [] := by
    intro he
    rw [he] at h
    exact absurd h (by decide)
  unfold validate_product_data
  dsimp only
  rw [if_pos ⟨hne, h⟩]
  simp

/-! ### Claim theorems -/

/-- C2 counterexample: the code `CAFÉ` contains `É`, a character outside
`[A-Za-z0-9._-]`, yet Python's Unicode-aware `isalnum` accepts it: the
format check passes and the row creates a product instead of being
rejected. -/
theorem claim_C2_counterexample :
    (∃ c ∈ "CAFÉ".toList, ¬ specAllowedChar c) ∧
    validate_product_code "CAFÉ".toList = none ∧
    rowCode wRowCafe = "CAFÉ".toList ∧
    (processRow env0 (initState []) wRowCafe).stats.created =
      (initState []).stats.created + 1 ∧
    (processRow env0 (initState []) wRowCafe).sessionProducts ≠
      (initState []).sessionProducts := by
  exact ⟨⟨'É', by decide, by decide⟩, by decide, by decide, by decide, by decide⟩

/-- C2 (amended): product-code validation fails exactly when the code is
empty, longer than 50 characters, or contains a character that is neither
Python-alphanumeric nor one of `-_.`; restricted to all-ASCII codes this is
exactly the spec's class `[A-Za-z0-9._-]`, but non-ASCII Unicode
alphanumerics outside that class are accepted; and a row whose normalized
code fails the check is rejected as a validation error: structured
`validation` records are appended and no product is created or modified. -/
theorem claim_C2_amended :
    (∀ code : Str, (validate_product_code code).isSome = true ↔
        code = [] ∨ 50 < code.length ∨ ∃ c ∈ code, ¬ pyAllowedChar c) ∧
    (∀ code : Str, (∀ c ∈ code, c.toNat < 128) →
      ((validate_product_code code).isSome = true ↔
        code = [] ∨ 50 < code.length ∨ ∃ c ∈ code, ¬ specAllowedChar c)) ∧
    (∀ (env : Env) (st : PState) (row : Row),
      env.rowFault row = none →
      (validate_product_code (rowCode row)).isSome = true →
      (processRow env st row).sessionProducts = st.sessionProducts ∧
      (processRow env st row).processedCodes = st.processedCodes ∧
      (processRow env st row).stats.created = st.stats.created ∧
      (processRow env st row).stats.updated = st.stats.updated ∧
      ∃ recs, recs ≠ [] ∧
        (processRow env st row).errors = st.errors ++ recs ∧
        ∀ r ∈ recs, r.category = "validation".toList) := by
  refine ⟨validate_code_isSome_iff, validate_code_ascii_iff, ?_⟩
  intro env st row hf hv
  obtain ⟨e, he⟩ := Option.isSome_iff_exists.mp hv
  have hvne := @vpd_ne_nil_of_code_err (rowCode row) (rowDesc row) e he
  rw [processRow_validation hf hvne]
  refine ⟨rfl, rfl, rfl, rfl,
    (validate_product_data (rowCode row) (rowDesc row)).map
      (fun e => ⟨"validation".toList, e, row⟩), ?_, rfl, ?_⟩
  · simp [hvne]
  · intro r hr
    obtain ⟨e', _, rfl⟩ := List.mem_map.mp hr
    rfl

/-- C2 witness: on the all-ASCII code `AB C` the original class
characterization holds, the code is rejected (space is outside the class),
and the row leaves the state untouched except for the recorded errors. -/
theorem claim_C2_witness :
    ((validate_product_code "AB C".toList).isSome = true ↔
      "AB C".toList = [] ∨ 50 < "AB C".toList.length ∨
        ∃ c ∈ "AB C".toList, ¬ specAllowedChar c) ∧
    (processRow env0 (initState []) wRowBadChar).sessionProducts =
      (initState []).sessionProducts ∧
    (processRow env0 (initState []) wRowBadChar).processedCodes =
      (initState []).processedCodes ∧
    (processRow env0 (initState []) wRowBadChar).stats.created =
      (initState []).stats.created ∧
    (processRow env0 (initState []) wRowBadChar).stats.updated =
      (initState []).stats.updated ∧
    ∃ recs, recs ≠ [] ∧
      (processRow env0 (initState []) wRowBadChar).errors =
        (initState []).errors ++ recs ∧
      ∀ r ∈ recs, r.category = "validation".toList := by
  obtain ⟨h1, h2, h3⟩ := claim_C2_amended
  obtain ⟨g1, g2, g3, g4, g5⟩ :=
    h3 env0 (initState []) wRowBadChar rfl (by decide)
  exact ⟨h2 ("AB C".toList) (by decide), g1, g2, g3, g4, g5⟩

/-- C10: a row whose normalized code starts with `TEST-`, or whose normalized
description lowercases to a `deprecated`-headed string, fails validation and
creates or modifies no product; `validation` records are appended. -/
theorem claim_C10 : ∀ (env : Env) (st : PState) (row : Row),
    startswith (rowCode row) "TEST-".toList = true ∨
      startswith (lower (rowDesc row)) "deprecated".toList = true →
    validate_product_data (rowCode row) (rowDesc row) ≠ [] ∧
    (env.rowFault row = none →
      (processRow env st row).sessionProducts = st.sessionProducts ∧
      (processRow env st row).processedCodes = st.processedCodes ∧
      (processRow env st row).stats.created = st.stats.created ∧
      (processRow env st row).stats.updated = st.stats.updated ∧
      ∃ recs, recs ≠ [] ∧
        (processRow env st row).errors = st.errors ++ recs ∧
        ∀ r ∈ recs, r.category = "validation".toList) := by
  intro env st row h
  have hvne : validate_product_data (rowCode row) (rowDesc row) ≠ [] := by
    rcases h with h | h
    · exact vpd_ne_nil_of_test h
    · exact vpd_ne_nil_of_depr h
  refine ⟨hvne, fun hf => ?_⟩
  rw [processRow_validation hf hvne]
  refine ⟨rfl, rfl, rfl, rfl,
    (validate_product_data (rowCode row) (rowDesc row)).map
      (fun e => ⟨"validation".toList, e, row⟩), ?_, rfl, ?_⟩
  · simp [hvne]
  · intro r hr
    obtain ⟨e', _, rfl⟩ := List.mem_map.mp hr
    rfl

/-- C10 witness: the format-valid code `TEST-X` is rejected. -/
theorem claim_C10_witness :
    validate_product_data (rowCode wRowTest) (rowDesc wRowTest) ≠ [] ∧
    (env0.rowFault wRowTest = none →
      (processRow env0 (initState []) wRowTest).sessionProducts =
        (initState []).sessionProducts ∧
      (processRow env0 (initState []) wRowTest).processedCodes =
        (initState []).processedCodes ∧
      (processRow env0 (initState []) wRowTest).stats.created =
        (initState []).stats.created ∧
      (processRow env0 (initState []) wRowTest).stats.updated =
        (initState []).stats.updated ∧
      ∃ recs, recs ≠ [] ∧
        (processRow env0 (initState []) wRowTest).errors =
          (initState []).errors ++ recs ∧
        ∀ r ∈ recs, r.category = "validation".toList) :=
  claim_C10 env0 (initState []) wRowTest (Or.inl (by decide))

/-- C7: a file missing a required column is a whole-file failure: no row is
processed (all counters still zero), `success` is `false`, and one
`file_processing` record is reported. -/
theorem claim_C7 : ∀ (env : Env) (db : List Product) (path : Str)
    (file : CsvFile) (bs : Nat),
    requiredColumnsPresent file = false →
    processFile env db path file bs =
      { success := false, stats := initStats,
        errors := [⟨"file_processing".toList,
          "Missing required columns in CSV file".toList,
          [("file".toList, path)]⟩] } := by
  intro env db path file bs h
  unfold processFile
  dsimp only
  rw [if_neg (by simp [h])]
  rfl

/-- C7 witness: the one-column file is rejected whole. -/
theorem claim_C7_witness :
    processFile env0 [] wPath wFileBad 100 =
      { success := false, stats := initStats,
        errors := [⟨"file_processing".toList,
          "Missing required columns in CSV file".toList,
          [("file".toList, wPath)]⟩] } :=
  claim_C7 env0 [] wPath wFileBad 100 (by decide)

/-- C5: a surviving row whose normalized code matches no session product
creates exactly one product: code and name are the trimmed uppercased input
code, the description is the row's trimmed description, both timestamps are
the current clock; the row is counted as created and nothing else changes. -/
theorem claim_C5 : ∀ (env : Env) (st : PState) (row : Row),
    env.rowFault row = none →
    validate_product_data (rowCode row) (rowDesc row) = [] →
    rowCode row ∉ st.processedCodes →
    is_system_product env (rowCode row) = false →
    findProduct st.sessionProducts (rowCode row) = none →
    (processRow env st row).sessionProducts = st.sessionProducts ++
      [{ id := env.genUuid st.clock, productCode := rowCode row,
         name := rowCode row, description := rowDesc row,
         createdAt := st.clock, modifiedAt := st.clock }] ∧
    (processRow env st row).stats.created = st.stats.created + 1 ∧
    (processRow env st row).stats.updated = st.stats.updated ∧
    (processRow env st row).stats.skipped = st.stats.skipped ∧
    (processRow env st row).errors = st.errors := by
  intro env st row hf hv hd hs hfind
  rw [processRow_create hf hv hd hs hfind]
  exact ⟨rfl, rfl, rfl, rfl, rfl⟩

/-- C5 witness: the row ` abc-1 ` creates product `ABC-1` at clock 0. -/
theorem claim_C5_witness :
    (processRow env0 (initState []) wRowCreate).sessionProducts =
      (initState []).sessionProducts ++
      [{ id := env0.genUuid (initState []).clock,
         productCode := rowCode wRowCreate, name := rowCode wRowCreate,
         description := rowDesc wRowCreate,
         createdAt := (initState []).clock,
         modifiedAt := (initState []).clock }] ∧
    (processRow env0 (initState []) wRowCreate).stats.created =
      (initState []).stats.created + 1 ∧
    (processRow env0 (initState []) wRowCreate).stats.updated =
      (initState []).stats.updated ∧
    (processRow env0 (initState []) wRowCreate).stats.skipped =
      (initState []).stats.skipped ∧
    (processRow env0 (initState []) wRowCreate).errors =
      (initState []).errors :=
  claim_C5 env0 (initState []) wRowCreate rfl (by decide) (by decide) rfl rfl

/-- C4: a surviving row whose normalized code matches a session product
either updates exactly that product's description and modification timestamp
(counting the row as updated) when the row's description is non-empty and
differs, or leaves the session entirely unchanged (counting the row as
skipped); and no call ever deletes a product. -/
theorem claim_C4 : ∀ (env : Env) (st : PState) (row : Row) (p : Product),
    env.rowFault row = none →
    validate_product_data (rowCode row) (rowDesc row) = [] →
    rowCode row ∉ st.processedCodes →
    is_system_product env (rowCode row) = false →
    findProduct st.sessionProducts (rowCode row) = some p →
    (rowDesc row ≠ [] ∧ rowDesc row ≠ p.description →
      ∃ pre suf, st.sessionProducts = pre ++ p :: suf ∧
        (∀ q ∈ pre, q.productCode ≠ rowCode row) ∧
        (processRow env st row).sessionProducts =
          pre ++ { p with description := rowDesc row,
                          modifiedAt := st.clock } :: suf ∧
        (processRow env st row).stats.updated = st.stats.updated + 1 ∧
        (processRow env st row).stats.created = st.stats.created ∧
        (processRow env st row).stats.skipped = st.stats.skipped) ∧
    (¬ (rowDesc row ≠ [] ∧ rowDesc row ≠ p.description) →
      (processRow env st row).sessionProducts = st.sessionProducts ∧
      (processRow env st row).stats.skipped = st.stats.skipped + 1 ∧
      (processRow env st row).stats.updated = st.stats.updated ∧
      (processRow env st row).stats.created = st.stats.created) ∧
    (∀ (env₂ : Env) (st₂ : PState) (row₂ : Row), ∃ rest,
      (processRow env₂ st₂ row₂).sessionProducts.map Product.productCode =
        st₂.sessionProducts.map Product.productCode ++ rest) := by
  intro env st row p hf hv hd hs hfind
  refine ⟨?_, ?_, fun env₂ st₂ row₂ => processRow_prodCodes env₂ st₂ row₂⟩
  · intro hdesc
    obtain ⟨pre, suf, hsp, hpre, hpc, hupd⟩ :=
      findProduct_update_decomp hfind (rowDesc row) st.clock
    rw [processRow_update hf hv hd hs hfind hdesc]
    exact ⟨pre, suf, hsp, hpre, hupd, rfl, rfl, rfl⟩
  · intro hdesc
    rw [processRow_nochange hf hv hd hs hfind hdesc]
    exact ⟨rfl, rfl, rfl, rfl⟩

/-- C4 witness: the row for `P1` with description `new desc` rewrites the
stored product `P1` in place. -/
theorem claim_C4_witness :
    ∃ pre suf, wStP.sessionProducts = pre ++ wProd :: suf ∧
      (∀ q ∈ pre, q.productCode ≠ rowCode wRowUpd) ∧
      (processRow env0 wStP wRowUpd).sessionProducts =
        pre ++ { wProd with description := rowDesc wRowUpd,
                            modifiedAt := wStP.clock } :: suf ∧
      (processRow env0 wStP wRowUpd).stats.updated = wStP.stats.updated + 1 ∧
      (processRow env0 wStP wRowUpd).stats.created = wStP.stats.created ∧
      (processRow env0 wStP wRowUpd).stats.skipped = wStP.stats.skipped :=
  (claim_C4 env0 wStP wRowUpd wProd rfl (by decide) (by decide) rfl
    (by decide)).1 (by decide)

/-- C6: a row whose handling raises is caught inside `_process_row`: the
exception is recorded as a `processing` error and counted, the session is
untouched; a row failing validation is likewise recorded and counted; and in
both cases the batch continues with the next row. -/
theorem claim_C6 : ∀ (env : Env) (st : PState) (rowA rowB : Row)
    (rs : List Row),
    (∀ msg, env.rowFault rowA = some msg →
      processRow env st rowA =
        { st with
          errors := st.errors ++ [⟨"processing".toList, msg, rowA⟩],
          stats.total_errors := st.stats.total_errors + 1 }) ∧
    (env.rowFault rowB = none →
      validate_product_data (rowCode rowB) (rowDesc rowB) ≠ [] →
      processRow env st rowB =
        { st with
          stats.validation_errors := st.stats.validation_errors +
            (validate_product_data (rowCode rowB) (rowDesc rowB)).length,
          errors := st.errors ++
            (validate_product_data (rowCode rowB) (rowDesc rowB)).map
              (fun e => ⟨"validation".toList, e, rowB⟩) }) ∧
    processRows env st (rowA :: rs) = processRows env (processRow env st rowA) rs := by
  intro env st rowA rowB rs
  exact ⟨fun msg hf => processRow_fault hf,
    fun hf hv => processRow_validation hf hv, rfl⟩

/-- C6 witness: under `envFaulty` the empty row raises `KeyError`, is
recorded and counted, and the batch moves on to the next row. -/
theorem claim_C6_witness :
    processRow envFaulty (initState []) [] =
      { initState [] with
        errors := (initState []).errors ++
          [⟨"processing".toList, "KeyError".toList, []⟩],
        stats.total_errors := (initState []).stats.total_errors + 1 } ∧
    processRow envFaulty (initState []) wRowBadChar =
      { initState [] with
        stats.validation_errors := (initState []).stats.validation_errors +
          (validate_product_data (rowCode wRowBadChar)
            (rowDesc wRowBadChar)).length,
        errors := (initState []).errors ++
          (validate_product_data (rowCode wRowBadChar)
            (rowDesc wRowBadChar)).map
            (fun e => ⟨"validation".toList, e, wRowBadChar⟩) } ∧
    processRows envFaulty (initState []) ([] :: [wRowCreate]) =
      processRows envFaulty (processRow envFaulty (initState []) [])
        [wRowCreate] := by
  obtain ⟨h1, h2, h3⟩ :=
    claim_C6 envFaulty (initState []) [] wRowBadChar [wRowCreate]
  exact ⟨h1 ("KeyError".toList) (by decide), h2 (by decide) (by decide), h3⟩

/-- C9: within one run each distinct normalized code is created-or-updated
at most once; a later surviving row bearing an already-processed code is
counted as skipped with no other effect, even if its description differs;
and a row rejected by validation never enters the processed-code set. -/
theorem claim_C9 : ∀ (env : Env) (st : PState) (rowA rowB : Row)
    (rows : List Row) (c : Str),
    (env.rowFault rowA = none →
      validate_product_data (rowCode rowA) (rowDesc rowA) = [] →
      rowCode rowA ∈ st.processedCodes →
      processRow env st rowA =
        { st with stats.skipped := st.stats.skipped + 1 }) ∧
    (env.rowFault rowB = none →
      validate_product_data (rowCode rowB) (rowDesc rowB) ≠ [] →
      (processRow env st rowB).processedCodes = st.processedCodes) ∧
    mutationsOf env st rows c ≤ 1 := by
  intro env st rowA rowB rows c
  refine ⟨fun hf hv hd => processRow_dup hf hv hd, fun hf hv => ?_,
    mutationsOf_le_one env rows st c⟩
  rw [processRow_validation hf hv]

/-- C9 witness: a second `ABC-1` row is a pure skip, the bad-character row
adds nothing to the processed set, and two `ABC-1` rows yield at most one
create-or-update. -/
theorem claim_C9_witness :
    processRow env0 wStDup wRowCreate =
      { wStDup with stats.skipped := wStDup.stats.skipped + 1 } ∧
    (processRow env0 wStDup wRowBadChar).processedCodes =
      wStDup.processedCodes ∧
    mutationsOf env0 wStDup [wRowCreate, wRowCreate] ("ABC-1".toList) ≤ 1 := by
  obtain ⟨h1, h2, h3⟩ := claim_C9 env0 wStDup wRowCreate wRowBadChar
    [wRowCreate, wRowCreate] ("ABC-1".toList)
  exact ⟨h1 rfl (by decide) (by decide), h2 rfl (by decide), h3⟩

/-- C8: the file's rows are partitioned, in file order, into consecutive
batches of exactly `batch_size` rows with only the final batch smaller;
the batch count is `ceil(row_count / batch_size)`; and (absent commit
faults) the whole loop hands the rows to `_process_row` in file order:
its outcome is the plain fold over the file's rows. -/
theorem claim_C8 : ∀ (env : Env) (db : List Product) (path : Str)
    (file : CsvFile) (bs : Nat),
    0 < bs →
    (chunkRows bs file.rows).flatten = file.rows ∧
    (chunkRows bs file.rows).length = (file.rows.length + bs - 1) / bs ∧
    (∀ b ∈ chunkRows bs file.rows, b ≠ [] ∧ b.length ≤ bs) ∧
    (∀ b ∈ (chunkRows bs file.rows).dropLast, b.length = bs) ∧
    ((∀ n, env.commitFault n = none) →
      requiredColumnsPresent file = true →
      (processFile env db path file bs).stats =
        { (processRows env (initState (env.initSystem db)) file.rows).stats with
          successful_batches := (chunkRows bs file.rows).length } ∧
      (processFile env db path file bs).errors =
        (processRows env (initState (env.initSystem db)) file.rows).errors) := by
  intro env db path file bs hbs
  refine ⟨chunkRows_flatten bs hbs file.rows, chunkRows_length bs hbs file.rows,
    chunkRows_sizes bs hbs file.rows, chunkRows_dropLast bs hbs file.rows, ?_⟩
  intro hcf hcols
  have hflat := chunkRows_flatten bs hbs file.rows
  obtain ⟨n1, n2, n3, n4, n5⟩ := processBatches_nofault env hcf
    (chunkRows bs file.rows) 1 (initState (env.initSystem db))
  unfold processFile
  dsimp only
  rw [if_pos hcols]
  dsimp only
  rw [hflat] at n3 n5
  constructor
  · rw [n5]
    have : (initState (env.initSystem db)).stats.successful_batches = 0 := rfl
    rw [this, Nat.zero_add]
  · exact n3

/-- C8 witness: a one-row file under batch size 2 makes a single batch and
folds the row directly. -/
theorem claim_C8_witness :
    (chunkRows 2 wFile.rows).flatten = wFile.rows ∧
    (chunkRows 2 wFile.rows).length = (wFile.rows.length + 2 - 1) / 2 ∧
    (processFile env0 [] wPath wFile 2).stats =
      { (processRows env0 (initState (env0.initSystem [])) wFile.rows).stats with
        successful_batches := (chunkRows 2 wFile.rows).length } ∧
    (processFile env0 [] wPath wFile 2).errors =
      (processRows env0 (initState (env0.initSystem [])) wFile.rows).errors := by
  obtain ⟨h1, h2, h3, h4, h5⟩ := claim_C8 env0 [] wPath wFile 2 (by decide)
  obtain ⟨h5a, h5b⟩ := h5 (fun n => rfl) (by decide)
  exact ⟨h1, h2, h5a, h5b⟩

/-- C1 counterexample: for a file missing a required column, the summary
reports `success = false` even though `failed_batches = 0`, so the claimed
equivalence fails on the file-error path. -/
theorem claim_C1_counterexample :
    (processFile env0 [] wPath wFileBad 100).success = false ∧
    (processFile env0 [] wPath wFileBad 100).stats.failed_batches = 0 := by
  exact ⟨by decide, by decide⟩

/-- C1 (amended): provided the file passes the header-mapping check (so the
run reaches the batch loop), the summary's `success` is `true` exactly when
`failed_batches` is zero; each batch whose commit raises is counted as
exactly one failed batch and one error, and the loop still runs every batch
(on a file-level error the result is `success = false` regardless of the
counter). -/
theorem claim_C1_amended : ∀ (env : Env) (db : List Product) (path : Str)
    (file : CsvFile) (bs : Nat),
    0 < bs →
    requiredColumnsPresent file = true →
    (((processFile env db path file bs).success = true) ↔
      (processFile env db path file bs).stats.failed_batches = 0) ∧
    (processFile env db path file bs).stats.failed_batches =
      (List.range' 1 (chunkRows bs file.rows).length).countP
        (fun m => (env.commitFault m).isSome) ∧
    (processFile env db path file bs).stats.total_errors =
      file.rows.countP (fun r => (env.rowFault r).isSome) +
        (List.range' 1 (chunkRows bs file.rows).length).countP
          (fun m => (env.commitFault m).isSome) := by
  intro env db path file bs hbs hcols
  obtain ⟨s1, s2, s3⟩ := processBatches_stats env (chunkRows bs file.rows) 1
    (initState (env.initSystem db))
  unfold processFile
  dsimp only
  rw [if_pos hcols]
  dsimp only
  rw [chunkRows_flatten bs hbs file.rows] at s3
  have hz : (initState (env.initSystem db)).stats.failed_batches = 0 := rfl
  have hz2 : (initState (env.initSystem db)).stats.total_errors = 0 := rfl
  refine ⟨?_, ?_, ?_⟩
  · simp only [beq_iff_eq]
  · rw [s1, hz, Nat.zero_add]
  · rw [s3, hz2, Nat.zero_add]

/-- C1 witness: the equivalence and the counts at a fault-free one-row
file. -/
theorem claim_C1_witness :
    (((processFile env0 [] wPath wFile 100).success = true) ↔
      (processFile env0 [] wPath wFile 100).stats.failed_batches = 0) ∧
    (processFile env0 [] wPath wFile 100).stats.failed_batches =
      (List.range' 1 (chunkRows 100 wFile.rows).length).countP
        (fun m => (env0.commitFault m).isSome) ∧
    (processFile env0 [] wPath wFile 100).stats.total_errors =
      wFile.rows.countP (fun r => (env0.rowFault r).isSome) +
        (List.range' 1 (chunkRows 100 wFile.rows).length).countP
          (fun m => (env0.commitFault m).isSome) :=
  claim_C1_amended env0 [] wPath wFile 100 (by decide) (by decide)

/-- C3 counterexample: a run whose only batch's commit raises ends with the
failure counted (`failed_batches = 1`, `total_errors = 1`) but with an empty
error-record list: the batch-level failure appends no structured record. -/
theorem claim_C3_counterexample :
    (processFile envCommitFail [] wPath wFile 100).stats.failed_batches = 1 ∧
    (processFile envCommitFail [] wPath wFile 100).stats.total_errors = 1 ∧
    (processFile envCommitFail [] wPath wFile 100).errors = [] := by
  have h0 : chunkRows 100 ([] : List Row) = [] := by rw [chunkRows]
  have hch : chunkRows 100 [wRowCreate] = [[wRowCreate]] := by
    rw [chunkRows, List.drop_nil, h0, List.take_of_length_le (by simp)]
  have hpf : processFile envCommitFail [] wPath wFile 100 =
      { success := (processBatches envCommitFail [[wRowCreate]] 1
          (initState (envCommitFail.initSystem []))).stats.failed_batches == 0,
        stats := (processBatches envCommitFail [[wRowCreate]] 1
          (initState (envCommitFail.initSystem []))).stats,
        errors := (processBatches envCommitFail [[wRowCreate]] 1
          (initState (envCommitFail.initSystem []))).errors } := by
    unfold processFile
    dsimp only
    rw [if_pos (by decide)]
    have hrows : wFile.rows = [wRowCreate] := rfl
    rw [hrows, hch]
  rw [hpf]
  exact ⟨by decide, by decide, by decide⟩

/-- C3 (amended): every row-level failure both increments a counter and
appends a structured record (`processing` for exceptions, `validation` for
validation errors); a batch-level commit failure increments `failed_batches`
and `total_errors` but appends no structured record — it is only logged. -/
theorem claim_C3_amended : ∀ (env : Env) (st : PState) (rowA rowB : Row)
    (batch : List Row) (n : Nat),
    (∀ msg, env.rowFault rowA = some msg →
      (processRow env st rowA).errors =
        st.errors ++ [⟨"processing".toList, msg, rowA⟩] ∧
      (processRow env st rowA).stats.total_errors =
        st.stats.total_errors + 1) ∧
    (env.rowFault rowB = none →
      validate_product_data (rowCode rowB) (rowDesc rowB) ≠ [] →
      (processRow env st rowB).errors = st.errors ++
        (validate_product_data (rowCode rowB) (rowDesc rowB)).map
          (fun e => ⟨"validation".toList, e, rowB⟩) ∧
      (processRow env st rowB).stats.validation_errors =
        st.stats.validation_errors +
          (validate_product_data (rowCode rowB) (rowDesc rowB)).length) ∧
    (∀ msg, env.commitFault n = some msg →
      (processBatch env st batch n).stats.failed_batches =
        (processRows env st batch).stats.failed_batches + 1 ∧
      (processBatch env st batch n).stats.total_errors =
        (processRows env st batch).stats.total_errors + 1 ∧
      (processBatch env st batch n).errors =
        (processRows env st batch).errors) := by
  intro env st rowA rowB batch n
  refine ⟨?_, ?_, ?_⟩
  · intro msg hf
    rw [processRow_fault hf]
    exact ⟨rfl, rfl⟩
  · intro hf hv
    rw [processRow_validation hf hv]
    exact ⟨rfl, rfl⟩
  · intro msg hc
    rw [processBatch_fault hc]
    exact ⟨rfl, rfl, rfl⟩

/-- C3 witness: under `envFaulty` the raising row and the invalid row are
recorded and counted, and the failed commit is counted without a record. -/
theorem claim_C3_witness :
    ((processRow envFaulty (initState []) []).errors =
      (initState []).errors ++
        [⟨"processing".toList, "KeyError".toList, []⟩] ∧
     (processRow envFaulty (initState []) []).stats.total_errors =
      (initState []).stats.total_errors + 1) ∧
    ((processRow envFaulty (initState []) wRowBadChar).errors =
      (initState []).errors ++
        (validate_product_data (rowCode wRowBadChar)
          (rowDesc wRowBadChar)).map
          (fun e => ⟨"validation".toList, e, wRowBadChar⟩) ∧
     (processRow envFaulty (initState []) wRowBadChar).stats.validation_errors =
      (initState []).stats.validation_errors +
        (validate_product_data (rowCode wRowBadChar)
          (rowDesc wRowBadChar)).length) ∧
    ((processBatch envFaulty (initState []) [wRowCreate] 1).stats.failed_batches =
      (processRows envFaulty (initState []) [wRowCreate]).stats.failed_batches
        + 1 ∧
     (processBatch envFaulty (initState []) [wRowCreate] 1).stats.total_errors =
      (processRows envFaulty (initState []) [wRowCreate]).stats.total_errors
        + 1 ∧
     (processBatch envFaulty (initState []) [wRowCreate] 1).errors =
      (processRows envFaulty (initState []) [wRowCreate]).errors) := by
  obtain ⟨h1, h2, h3⟩ := claim_C3_amended envFaulty (initState []) []
    wRowBadChar [wRowCreate] 1
  exact ⟨h1 ("KeyError".toList) (by decide), h2 (by decide) (by decide),
    h3 ("IntegrityError".toList) (by decide)⟩

end PyImporter

